import Mathlib

/-!
Shallow embedding of the RL training dashboard frontend (`App.js`) for the
rl-dashboard repository.  JavaScript numbers that flow through the parsing
paths are modelled as `Option ℚ`, with `none` standing for `NaN`; machine
floating point never matters for the verified properties (only parse
success/failure, list lengths, and exact decimal literals).  The React
component's mutable hooks state is modelled as an explicit record
`AppState`, the network callbacks and user interactions as an `Event`
type, and each `useEffect` hook as code run by `step` when the hook's
dependency changed, mirroring React's dependency-array semantics.
Observable behaviour (auto-selections, issued fetches, console logging) is
reported as a list of `Action`s.
-/

namespace RLDash

/-- Value of a digit character, as used when folding a digit run into a number. -/
def digitVal (c : Char) : Nat := c.toNat - Char.toNat '0'

/-- Fold a run of decimal digit characters into a natural number. -/
def digitsToNat (ds : List Char) : Nat :=
  ds.foldl (fun acc c => 10 * acc + digitVal c) 0

/-- Exponent digits after an optional sign; an empty digit run contributes
exponent `0`, matching JavaScript `parseFloat`, which ignores a dangling
exponent marker (`parseFloat "1e"` is `1`). -/
def expSigned (cs : List Char) : Int :=
  match cs with
  | '+' :: rest => Int.ofNat (digitsToNat (rest.takeWhile Char.isDigit))
  | '-' :: rest => -Int.ofNat (digitsToNat (rest.takeWhile Char.isDigit))
  | _ => Int.ofNat (digitsToNat (cs.takeWhile Char.isDigit))

/-- Exponent part of a decimal literal: `e` or `E` followed by an optionally
signed digit run; anything else contributes exponent `0`. -/
def expValue (cs : List Char) : Int :=
  match cs with
  | 'e' :: rest => expSigned rest
  | 'E' :: rest => expSigned rest
  | _ => 0

/-- Scale a rational by a (possibly negative) power of ten. -/
def applyExp (q : ℚ) (e : Int) : ℚ :=
  if 0 ≤ e then q * (10 : ℚ) ^ e.toNat else q / (10 : ℚ) ^ (-e).toNat

/-- Unsigned part of JavaScript `parseFloat`: the longest prefix shaped
`digits [ "." digits ] [ exponent ]`; `none` (JavaScript `NaN`) when not even
one digit of integer or fractional part can be consumed. -/
def parseFloatAux (cs : List Char) : Option ℚ :=
  let intPart := cs.takeWhile Char.isDigit
  let rest := cs.dropWhile Char.isDigit
  let fracPart :=
    match rest with
    | '.' :: r => r.takeWhile Char.isDigit
    | _ => []
  let rest2 :=
    match rest with
    | '.' :: r => r.dropWhile Char.isDigit
    | _ => rest
  if intPart.isEmpty ∧ fracPart.isEmpty then none
  else
    some (applyExp ((digitsToNat intPart : ℚ) +
      (digitsToNat fracPart : ℚ) / (10 : ℚ) ^ fracPart.length) (expValue rest2))

/-- Model of the JavaScript built-in `parseFloat` restricted to finite decimal
literals: leading whitespace is skipped, then an optional sign and the longest
numeric prefix are converted; if no numeric prefix exists the result is `none`
(JavaScript `NaN`).  (The `Infinity` literal accepted by the real built-in is
not modelled; no dashboard input uses it.) -/
def parseFloat (s : String) : Option ℚ :=
  let cs := s.data.dropWhile Char.isWhitespace
  match cs with
  | '-' :: rest => (parseFloatAux rest).map (fun q => -q)
  | '+' :: rest => parseFloatAux rest
  | _ => parseFloatAux cs

/-- Embedding of `json.steps?.map(s => parseFloat(s)) || []` (App.js lines
30–31 and 58–59): an absent field (`none`) falls back to the empty list via
`|| []`; a present field is mapped elementwise through `parseFloat`, each
element a JavaScript number where `none` stands for `NaN`. -/
def parseSeries (field : Option (List String)) : List (Option ℚ) :=
  match field with
  | some xs => xs.map parseFloat
  | none => []

/-- One run's summary row as served by `/runs` (fields `run`, `model`,
`best_reward`, `last_avg_return`, `elapsed_min`); optional numeric fields are
`Option`s, and `elapsed_min` is modelled as whole minutes (a natural number). -/
structure RunSummary where
  run : String
  model : Option String
  best_reward : Option ℚ
  last_avg_return : Option ℚ
  elapsed_min : Option Nat
deriving DecidableEq, Repr

/-- Wire shape of `/results` and `/results/{runId}` responses:
`{ steps: string[], returns: string[], best?, last?, elapsed? }`; the numeric
series arrive as strings. -/
structure ResultsJson where
  steps : Option (List String)
  returns : Option (List String)
  best : Option ℚ
  last : Option ℚ
  elapsed : Option ℚ
deriving DecidableEq, Repr

/-- Parsed series data held in `liveData` and in each `runDataCache` entry
(the result of spreading the JSON response and overwriting `steps`/`returns`
with their parsed forms). -/
structure SeriesData where
  steps : List (Option ℚ)
  returns : List (Option ℚ)
  best : Option ℚ
  last : Option ℚ
  elapsed : Option ℚ
deriving DecidableEq, Repr

/-- Association-list model of the plain-object cache `runDataCache`;
lookup of a key, `none` when absent (JavaScript `undefined`). -/
def cacheLookup (c : List (String × SeriesData)) (k : String) : Option SeriesData :=
  match c with
  | [] => none
  | (k', v) :: rest => if k' = k then some v else cacheLookup rest k

/-- Model of `{...prev, [runId]: v}`: an existing key keeps its position and
gets the new value; a new key is appended. -/
def cacheInsert (c : List (String × SeriesData)) (k : String) (v : SeriesData) :
    List (String × SeriesData) :=
  match c with
  | [] => [(k, v)]
  | (k', v') :: rest =>
      if k' = k then (k', v) :: rest else (k', v') :: cacheInsert rest k v

/-- Embedding of the checkbox `onChange` updater (App.js lines 204–210):
`prev.includes(id) ? prev.filter(x => x !== id) : [...prev, id]`. -/
def togglePlot (prev : List String) (runId : String) : List String :=
  if prev.contains runId then prev.filter (fun id => id != runId)
  else prev ++ [runId]

/-- Embedding of `num.toString().padStart(2, '0')` for a natural number. -/
def pad2 (n : Nat) : String :=
  let s := toString n
  if s.length < 2 then "0" ++ s else s

/-- Embedding of the elapsed-time table cell (App.js lines 187–196):
`run.elapsed_min ? pad(hours) + ":" + pad(minutes) : "-"`.  JavaScript
truthiness sends both an absent field and the value `0` to the `"-"` branch;
over natural-number minutes, `Math.floor(totalMinutes / 60)` is natural
division and `Math.floor(totalMinutes % 60)` the natural remainder. -/
def renderElapsed (elapsed_min : Option Nat) : String :=
  if elapsed_min.getD 0 ≠ 0 then
    let totalMinutes := elapsed_min.getD 0
    pad2 (totalMinutes / 60) ++ ":" ++ pad2 (totalMinutes % 60)
  else "-"

/-- The component's hooks state: `liveData`, `runs`, `activePlots` (the
selection, in insertion order), `runDataCache` and `showAllRuns`
(App.js lines 7–18). -/
structure AppState where
  liveData : SeriesData
  runs : List RunSummary
  activePlots : List String
  runDataCache : List (String × SeriesData)
  showAllRuns : Bool
deriving DecidableEq, Repr

/-- Observable actions of one step: an automatic default selection, a cache
fetch issued by the cache-population hook, a fetch issued by the 5-second
refresh interval, and a console log line. -/
inductive Action where
  | autoSelect (runId : String)
  | fetchOnDemand (runId : String)
  | fetchTimer (runId : String)
  | log (msg : String)
deriving DecidableEq, Repr

/-- External stimuli of the component: completion (or failure) of each of the
three fetches, the user toggling a row checkbox or the show-all link, and a
tick of the per-selection refresh interval. -/
inductive Event where
  | liveResults (resp : Except String ResultsJson)
  | runsResp (resp : Except String (List RunSummary))
  | runData (runId : String) (resp : Except String ResultsJson)
  | toggle (runId : String)
  | toggleShowAll
  | refreshTick

/-- Embedding of `fetchLiveResults` (App.js lines 23–36): on success the
whole `liveData` record is replaced by the response with `steps`/`returns`
parsed; on failure the error is logged via `console.error` and the state is
left untouched.  The `try`/`catch` is modelled by the function being total on
`Except`: no exception escapes. -/
def fetchLiveResults (resp : Except String ResultsJson) (s : AppState) :
    AppState × List Action :=
  match resp with
  | .ok json =>
      ({ s with liveData :=
          { steps := parseSeries json.steps, returns := parseSeries json.returns,
            best := json.best, last := json.last, elapsed := json.elapsed } }, [])
  | .error e => (s, [Action.log ("Failed to fetch live results: " ++ e)])

/-- Embedding of `fetchRuns` (App.js lines 39–47): on success `runs` is
replaced wholesale; on failure the error is logged and the state kept. -/
def fetchRuns (resp : Except String (List RunSummary)) (s : AppState) :
    AppState × List Action :=
  match resp with
  | .ok json => ({ s with runs := json }, [])
  | .error e => (s, [Action.log ("Failed to fetch runs summary: " ++ e)])

/-- Embedding of `fetchRunData` (App.js lines 50–65): on success the cache
entry for `runId` is overwritten (object spread `{...prev, [runId]: ...}`)
with the parsed response; on failure the error is logged and the cache
kept. -/
def fetchRunData (runId : String) (resp : Except String ResultsJson)
    (s : AppState) : AppState × List Action :=
  match resp with
  | .ok json =>
      let entry : SeriesData :=
        { steps := parseSeries json.steps, returns := parseSeries json.returns,
          best := json.best, last := json.last, elapsed := json.elapsed }
      ({ s with runDataCache := cacheInsert s.runDataCache runId entry }, [])
  | .error e =>
      (s, [Action.log ("Failed to fetch data for run " ++ runId ++ ": " ++ e)])

/-- Body of the cache-population hook (App.js lines 85–91): for every
selected run identifier with no cache entry, issue a `fetchRunData` request;
run by `step` exactly when its dependency `[activePlots]` changed. -/
def cachePopulation (s : AppState) : List Action :=
  (s.activePlots.filter
    (fun runId => (cacheLookup s.runDataCache runId).isNone)).map Action.fetchOnDemand

/-- Body of the default-selection hook (App.js lines 78–82): when the run
list is non-empty and the selection is empty, select exactly the first listed
run; run by `step` exactly when its dependency `[runs.length]` changed.
Setting `activePlots` makes the cache-population hook's dependency change, so
its body runs as well. -/
def defaultSelection (s : AppState) : AppState × List Action :=
  if 0 < s.runs.length ∧ s.activePlots.length = 0 then
    match s.runs with
    | [] => (s, [])
    | r :: _ =>
        let s2 := { s with activePlots := [r.run] }
        (s2, Action.autoSelect r.run :: cachePopulation s2)
  else (s, [])

/-- One transition of the component: apply the event's direct state update,
then the hooks whose dependency arrays changed, in source order.  A runs
response re-runs the default-selection hook only when `runs.length` changed;
a checkbox toggle always produces a new `activePlots` array, so the
cache-population hook re-runs; cache updates re-run no hook (no hook depends
on `runDataCache`); a refresh tick issues a timer fetch for every selected
run (App.js lines 94–103; when the selection is empty that interval does not
exist, and the embedding likewise issues no fetch). -/
def step (s : AppState) (e : Event) : AppState × List Action :=
  match e with
  | .liveResults resp => fetchLiveResults resp s
  | .runsResp resp =>
      let (s1, as1) := fetchRuns resp s
      if s1.runs.length = s.runs.length then (s1, as1)
      else
        let (s2, as2) := defaultSelection s1
        (s2, as1 ++ as2)
  | .runData runId resp => fetchRunData runId resp s
  | .toggle runId =>
      let s1 := { s with activePlots := togglePlot s.activePlots runId }
      (s1, cachePopulation s1)
  | .toggleShowAll => ({ s with showAllRuns := !s.showAllRuns }, [])
  | .refreshTick => (s, s.activePlots.map Action.fetchTimer)

/-- Run a sequence of events from a state, accumulating the actions. -/
def exec (s : AppState) : List Event → AppState × List Action
  | [] => (s, [])
  | e :: es =>
      let (s1, as1) := step s e
      let (s2, as2) := exec s1 es
      (s2, as1 ++ as2)

/-- Initial hooks state (App.js lines 7–18); the initial `liveData.elapsed`
is the empty array in the source, modelled as the absent value. -/
def init : AppState :=
  { liveData := { steps := [], returns := [], best := none, last := none, elapsed := none },
    runs := [], activePlots := [], runDataCache := [], showAllRuns := false }

/-- The fixed six-color palette of the chart (App.js line 123). -/
def colors : List String :=
  ["#8b76e9", "#76a5e9", "#e97676", "#76e9b3", "#e9d176", "#e976d1"]

/-- Color for the series at position `idx` of the selection:
`colors[idx % colors.length]`. -/
def paletteColor (idx : Nat) : String :=
  colors.getD (idx % colors.length) ""

/-- One plotted line series as handed to the charting surface. -/
structure PlotSeries where
  x : List (Option ℚ)
  y : List (Option ℚ)
  kind : String
  mode : String
  color : String
  name : String
deriving DecidableEq, Repr

/-- Body of the `data={activePlots.map((runId, idx) => ...)}` callback
(App.js lines 112–135): `null` when the identifier has no row in `runs`, no
cache entry, or an empty cached `steps` array; otherwise the series built
from the cached data.  (A cache entry always carries a `steps` array, so the
JavaScript `!runData.steps` test can never separately fire.) -/
def mkTrace (runs : List RunSummary) (cache : List (String × SeriesData))
    (idx : Nat) (runId : String) : Option PlotSeries :=
  match runs.find? (fun r => r.run == runId) with
  | none => none
  | some run =>
      match cacheLookup cache runId with
      | none => none
      | some runData =>
          if runData.steps.length = 0 then none
          else
            some { x := runData.steps, y := runData.returns, kind := "scatter",
                   mode := "lines", color := paletteColor idx, name := run.run }

/-- The chart's series list (App.js lines 112–136): map the trace builder
over the selection with its index and drop the `null`s (`filter(Boolean)`). -/
def plotData (activePlots : List String) (runs : List RunSummary)
    (cache : List (String × SeriesData)) : List PlotSeries :=
  (activePlots.enum.map (fun p => mkTrace runs cache p.1 p.2)).reduceOption

/-- Sample run summaries used by the concrete scenarios below. -/
def r1sum : RunSummary :=
  { run := "r1", model := some "ppo", best_reward := none,
    last_avg_return := none, elapsed_min := none }

/-- Second sample run summary. -/
def r2sum : RunSummary :=
  { run := "r2", model := some "dqn", best_reward := none,
    last_avg_return := none, elapsed_min := none }

/-- Sample cache entry used by the concrete scenarios below (a one-point
series whose value happens to be `NaN`; only its presence matters). -/
def sampleEntry : SeriesData :=
  { steps := [none], returns := [none], best := none, last := none, elapsed := none }

/-- Recognizer for automatic default selections among a step's actions. -/
def isAutoSelect : Action → Bool
  | .autoSelect _ => true
  | _ => false

/-- Number of automatic default selections among a list of actions. -/
def countAutoSelect (as : List Action) : Nat := as.countP isAutoSelect

/-- Recognizer for user checkbox toggles among events. -/
def isToggle : Event → Bool
  | .toggle _ => true
  | _ => false

/-- C1 (counterexample): for a `/results` response with steps
`["1","2","x","4"]` and returns `["0.1","0.2","0.3","0.4"]` the code does NOT
drop the unparsable entry: the stored steps series still has length 4 — the
same as returns — and contains the non-number `NaN` (modelled `none`),
contradicting "dropped from the resulting series (not ... kept as a
non-number)". -/
theorem c1_counterexample :
    (none : Option ℚ) ∈ ((fetchLiveResults (Except.ok
        { steps := some ["1", "2", "x", "4"],
          returns := some ["0.1", "0.2", "0.3", "0.4"],
          best := none, last := none, elapsed := none }) init).1).liveData.steps ∧
    ((fetchLiveResults (Except.ok
        { steps := some ["1", "2", "x", "4"],
          returns := some ["0.1", "0.2", "0.3", "0.4"],
          best := none, last := none, elapsed := none }) init).1).liveData.steps.length = 4 ∧
    ((fetchLiveResults (Except.ok
        { steps := some ["1", "2", "x", "4"],
          returns := some ["0.1", "0.2", "0.3", "0.4"],
          best := none, last := none, elapsed := none }) init).1).liveData.returns.length = 4 := by
  decide

/-- C1 (amended): an entry of `steps`/`returns` that does not parse as a
floating-point number is kept in place as `NaN` (`none`), not dropped and not
substituted with zero; parsing is elementwise, so each parsed series has
exactly the length of its input, and for the example input the malformed
index holds `NaN` while the x and y series still have equal length. -/
theorem c1_theorem :
    (∀ ss : List String, parseSeries (some ss) = ss.map parseFloat) ∧
    (∀ ss : List String, (parseSeries (some ss)).length = ss.length) ∧
    (parseSeries (some ["1", "2", "x", "4"])).get? 2 = some none ∧
    (parseFloat "x" = none ∧ (none : Option ℚ) ≠ some 0) ∧
    (parseSeries (some ["1", "2", "x", "4"])).length =
      (parseSeries (some ["0.1", "0.2", "0.3", "0.4"])).length := by
  refine ⟨fun ss => rfl, fun ss => ?_, by decide, by decide, by decide⟩
  simp [parseSeries]

/-- C5: toggling the same run identifier twice returns the selection to its
prior membership: for every list and identifier, an element is in
`togglePlot (togglePlot prev runId) runId` exactly when it is in `prev`. -/
theorem c5_theorem (prev : List String) (runId x : String) :
    (x ∈ togglePlot (togglePlot prev runId) runId) ↔ x ∈ prev := by
  by_cases h : runId ∈ prev <;>
    simp [togglePlot, List.contains, List.elem_eq_mem, h, List.mem_filter, bne_iff_ne]
  · constructor
    · rintro (⟨hx, _⟩ | rfl)
      · exact hx
      · exact h
    · intro hx
      by_cases hxr : x = runId
      · exact Or.inr hxr
      · exact Or.inl ⟨hx, hxr⟩
  · intro hx hxr
    exact h (hxr ▸ hx)

/-- C6 (counterexample): a row with `elapsed_min = 0` renders the placeholder
`-`, not the zero-padded clock `00:00` that the unrestricted
"hours/minutes, zero-padded" rule would dictate. -/
theorem c6_counterexample :
    renderElapsed (some 0) = "-" ∧
    renderElapsed (some 0) ≠ pad2 (0 / 60) ++ ":" ++ pad2 (0 % 60) := by
  decide

/-- C6 (amended): `elapsed_min = 125` renders `02:05`, `elapsed_min = 59`
renders `00:59`, an absent `elapsed_min` renders `-`, and for every PRESENT
NONZERO value the cell is `hours = n / 60` and `minutes = n % 60`, each
zero-padded to two digits (the value `0` is excluded: being falsy it renders
the placeholder, see the counterexample). -/
theorem c6_theorem :
    renderElapsed (some 125) = "02:05" ∧
    renderElapsed (some 59) = "00:59" ∧
    renderElapsed none = "-" ∧
    ∀ n : Nat, n ≠ 0 →
      renderElapsed (some n) = pad2 (n / 60) ++ ":" ++ pad2 (n % 60) := by
  refine ⟨by decide, by decide, by decide, fun n hn => ?_⟩
  simp [renderElapsed, hn]

/-- C6 (witness): the general rule of `c6_theorem` instantiated at 125 and at
61 minutes. -/
theorem c6_witness :
    renderElapsed (some 125) = "02:05" ∧
    renderElapsed (some 61) = pad2 (61 / 60) ++ ":" ++ pad2 (61 % 60) :=
  ⟨c6_theorem.1, c6_theorem.2.2.2 61 (by decide)⟩

/-- C9: a row whose `elapsed_min` is exactly `0` renders the placeholder `-`
rather than `00:00`, because the cell is gated on JavaScript truthiness of
the value, not only on its presence. -/
theorem c9_theorem :
    renderElapsed (some 0) = "-" ∧ renderElapsed (some 0) ≠ "00:00" := by
  decide

/-- C7: when any of the three fetch operations fails, the state is returned
entirely unchanged (no partial overwrite), the only observable effect is one
log action, and — each operation being a total function of the `Except`
result — no exception propagates. -/
theorem c7_theorem (msg : String) (runId : String) (s : AppState) :
    fetchLiveResults (Except.error msg) s =
      (s, [Action.log ("Failed to fetch live results: " ++ msg)]) ∧
    fetchRuns (Except.error msg) s =
      (s, [Action.log ("Failed to fetch runs summary: " ++ msg)]) ∧
    fetchRunData runId (Except.error msg) s =
      (s, [Action.log ("Failed to fetch data for run " ++ runId ++ ": " ++ msg)]) :=
  ⟨rfl, rfl, rfl⟩

/-- Cache-population runs issue only fetches, never an auto-selection. -/
theorem autoSelect_not_mem_cachePopulation (r : String) (s : AppState) :
    Action.autoSelect r ∉ cachePopulation s := by
  simp [cachePopulation]

/-- Cache-population runs count zero auto-selections. -/
theorem countAutoSelect_cachePopulation (s : AppState) :
    countAutoSelect (cachePopulation s) = 0 := by
  simp [countAutoSelect, cachePopulation, List.countP_map, Function.comp,
    isAutoSelect]

/-- Timer fetches count zero auto-selections. -/
theorem countAutoSelect_map_fetchTimer (l : List String) :
    countAutoSelect (l.map Action.fetchTimer) = 0 := by
  simp [countAutoSelect, List.countP_eq_zero, isAutoSelect]

/-- Counting auto-selections across a leading auto-selection. -/
theorem countAutoSelect_cons_auto (r : String) (as : List Action) :
    countAutoSelect (Action.autoSelect r :: as) = countAutoSelect as + 1 := by
  simp [countAutoSelect, List.countP_cons, isAutoSelect]

/-- C2 (counterexample): the default-selection rule can fire twice in one
view lifetime.  Runs load (auto-select fires), the user deselects the run,
and a later runs response with a different length re-fires the rule: the
trace produces two auto-selections. -/
theorem c2_counterexample :
    countAutoSelect (exec init [Event.runsResp (Except.ok [r1sum]),
      Event.toggle "r1", Event.runsResp (Except.ok [r2sum, r1sum])]).2 = 2 := by
  decide

/-- C2 (amended): the default-selection rule fires at most once per step, and
only on a runs response whose length differs from the stored run list's
length, arriving while the selection is empty; it then selects exactly the
response's first run.  It is NOT limited to once per view lifetime: it fires
again whenever the run-list length changes while the selection is empty (see
the counterexample). -/
theorem c2_theorem (s : AppState) (e : Event) :
    countAutoSelect (step s e).2 ≤ 1 ∧
    ∀ r, Action.autoSelect r ∈ (step s e).2 →
      s.activePlots = [] ∧
      ∃ rs rest, e = Event.runsResp (Except.ok (rs :: rest)) ∧
        rest.length + 1 ≠ s.runs.length ∧ r = rs.run ∧
        (step s e).1.activePlots = [rs.run] := by
  cases e with
  | liveResults resp =>
      cases resp <;>
        simp [step, fetchLiveResults, countAutoSelect, isAutoSelect, List.countP_cons]
  | runsResp resp =>
      cases resp with
      | error msg =>
          simp [step, fetchRuns, countAutoSelect, isAutoSelect, List.countP_cons]
      | ok l =>
          by_cases hlen : l.length = s.runs.length
          · simp [step, fetchRuns, hlen, countAutoSelect]
          · cases l with
            | nil =>
                simp [step, fetchRuns, hlen, defaultSelection, countAutoSelect]
            | cons rs rest =>
                simp only [List.length_cons] at hlen
                by_cases hap : s.activePlots = []
                · constructor
                  · simp [step, fetchRuns, hlen, defaultSelection, hap,
                      countAutoSelect_cons_auto, countAutoSelect_cachePopulation]
                  · intro r hr
                    simp [step, fetchRuns, hlen, defaultSelection, hap,
                      cachePopulation] at hr
                    refine ⟨hap, rs, rest, rfl, hlen, hr, ?_⟩
                    simp [step, fetchRuns, hlen, defaultSelection, hap]
                · simp [step, fetchRuns, hlen, defaultSelection, hap,
                    countAutoSelect, List.length_eq_zero]
  | runData runId resp =>
      cases resp <;>
        simp [step, fetchRunData, countAutoSelect, isAutoSelect, List.countP_cons]
  | toggle runId =>
      constructor
      · simp [step, countAutoSelect_cachePopulation]
      · intro r hr
        exact absurd hr (autoSelect_not_mem_cachePopulation r _)
  | toggleShowAll => simp [step, countAutoSelect]
  | refreshTick =>
      constructor
      · simp [step, countAutoSelect_map_fetchTimer]
      · intro r hr
        simp [step] at hr

/-- C2 (witness): the amended rule instantiated on the first runs response
`[r1sum]` arriving at the initial state; the fired selection is exactly the
first listed run. -/
theorem c2_witness :
    init.activePlots = [] ∧
    ∃ rs rest,
      Event.runsResp (Except.ok [r1sum]) = Event.runsResp (Except.ok (rs :: rest)) ∧
      rest.length + 1 ≠ init.runs.length ∧ "r1" = rs.run ∧
      (step init (Event.runsResp (Except.ok [r1sum]))).1.activePlots = [rs.run] :=
  (c2_theorem init (Event.runsResp (Except.ok [r1sum]))).2 "r1" (by decide)

/-- While no user toggle occurs and no auto-selection has been emitted, the
run list and the selection both stay empty: the first non-empty runs response
necessarily fires the default selection, so its absence means the run list
never became non-empty. -/
theorem step_empty_stays (s : AppState) (e : Event) (ht : isToggle e = false)
    (h1 : s.runs = []) (h2 : s.activePlots = [])
    (hcnt : countAutoSelect (step s e).2 = 0) :
    (step s e).1.runs = [] ∧ (step s e).1.activePlots = [] := by
  cases e with
  | liveResults resp => cases resp <;> simp_all [step, fetchLiveResults]
  | runsResp resp =>
      cases resp with
      | error msg => simp_all [step, fetchRuns]
      | ok l =>
          cases l with
          | nil => simp_all [step, fetchRuns]
          | cons rs rest =>
              exfalso
              have hlen : ¬(rest.length + 1 = s.runs.length) := by
                simp [h1]
              simp [step, fetchRuns, hlen, defaultSelection, h2,
                countAutoSelect_cons_auto] at hcnt
  | runData runId resp => cases resp <;> simp_all [step, fetchRunData]
  | toggle runId => simp [isToggle] at ht
  | toggleShowAll => simp_all [step]
  | refreshTick => simp_all [step]

/-- Trace version of `step_empty_stays`: along any toggle-free trace that
emits no auto-selection, runs and selection stay empty. -/
theorem exec_no_selection (es : List Event) :
    ∀ s : AppState, (∀ e ∈ es, isToggle e = false) → s.runs = [] →
      s.activePlots = [] → countAutoSelect (exec s es).2 = 0 →
      (exec s es).1.runs = [] ∧ (exec s es).1.activePlots = [] := by
  induction es with
  | nil => exact fun s _ h1 h2 _ => ⟨h1, h2⟩
  | cons e es ih =>
      intro s hnt h1 h2 hcnt
      have hcnt2 : countAutoSelect (step s e).2 = 0 ∧
          countAutoSelect (exec (step s e).1 es).2 = 0 := by
        simp only [exec, countAutoSelect, List.countP_append] at hcnt ⊢
        omega
      have hstep := step_empty_stays s e (hnt e (List.mem_cons_self e es)) h1 h2 hcnt2.1
      have hrest := ih (step s e).1 (fun x hx => hnt x (List.mem_cons_of_mem e hx))
        hstep.1 hstep.2 hcnt2.2
      simpa [exec] using hrest

/-- C3: a non-empty runs response arriving while the selection is empty and
no selection has yet been made (no toggle event occurred and no
auto-selection was emitted along the trace) selects exactly the run at list
position 0 and emits the auto-selection for it. -/
theorem c3_theorem (es : List Event) (rs : RunSummary) (rest : List RunSummary)
    (hnt : ∀ e ∈ es, isToggle e = false)
    (hcnt : countAutoSelect (exec init es).2 = 0) :
    (step (exec init es).1 (Event.runsResp (Except.ok (rs :: rest)))).1.activePlots
        = [rs.run] ∧
    Action.autoSelect rs.run
      ∈ (step (exec init es).1 (Event.runsResp (Except.ok (rs :: rest)))).2 := by
  obtain ⟨hr, ha⟩ := exec_no_selection es init hnt rfl rfl hcnt
  have hlen : ¬(rest.length + 1 = (exec init es).1.runs.length) := by
    simp [hr]
  constructor
  · simp [step, fetchRuns, hlen, defaultSelection, ha]
  · simp [step, fetchRuns, hlen, defaultSelection, ha]

/-- C3 (witness): the empty trace followed by the runs response `[r1sum]`
selects exactly `r1sum.run`. -/
theorem c3_witness :
    (step (exec init []).1 (Event.runsResp (Except.ok [r1sum]))).1.activePlots
        = [r1sum.run] ∧
    Action.autoSelect r1sum.run
      ∈ (step (exec init []).1 (Event.runsResp (Except.ok [r1sum]))).2 :=
  c3_theorem [] r1sum [] (by simp) (by decide)

/-- Looking up after an overwrite-or-append insert: the inserted key maps to
the new value, any other key is unaffected. -/
theorem cacheLookup_insert (c : List (String × SeriesData)) (k : String)
    (v : SeriesData) (q : String) :
    cacheLookup (cacheInsert c k v) q = if k = q then some v else cacheLookup c q := by
  induction c with
  | nil => simp [cacheInsert, cacheLookup]
  | cons kv rest ih =>
      obtain ⟨k2, v2⟩ := kv
      by_cases hk : k2 = k
      · subst hk
        by_cases hq : k2 = q <;> simp [cacheInsert, cacheLookup, hq]
      · by_cases hq : k2 = q
        · subst hq
          have : ¬(k = k2) := fun h => hk h.symm
          simp [cacheInsert, hk, cacheLookup, this]
        · simp [cacheInsert, hk, cacheLookup, hq, ih]

/-- A step never deletes a cache entry: an identifier with a cache entry
still has one (possibly refreshed) after any event. -/
theorem step_cache_persist (s : AppState) (e : Event) (r : String)
    (d : SeriesData) (h : cacheLookup s.runDataCache r = some d) :
    ∃ d2, cacheLookup (step s e).1.runDataCache r = some d2 := by
  cases e with
  | liveResults resp => cases resp <;> exact ⟨d, by simp_all [step, fetchLiveResults]⟩
  | runsResp resp =>
      cases resp with
      | error msg => exact ⟨d, by simp_all [step, fetchRuns]⟩
      | ok l =>
          by_cases hlen : l.length = s.runs.length
          · exact ⟨d, by simp_all [step, fetchRuns, hlen]⟩
          · refine ⟨d, ?_⟩
            simp only [step, fetchRuns, hlen, if_false]
            cases hds : defaultSelection { s with runs := l } with
            | mk s2 as2 =>
                have : s2.runDataCache = s.runDataCache := by
                  cases l with
                  | nil => simp [defaultSelection] at hds; simp [← hds.1]
                  | cons rs rest =>
                      by_cases hap : s.activePlots.length = 0 <;>
                        simp [defaultSelection, hap] at hds <;> simp [← hds.1]
                simpa [this] using h
  | runData runId resp =>
      cases resp with
      | error msg => exact ⟨d, by simp_all [step, fetchRunData]⟩
      | ok json =>
          by_cases hid : runId = r
          · subst hid
            refine ⟨{ steps := parseSeries json.steps,
                      returns := parseSeries json.returns, best := json.best,
                      last := json.last, elapsed := json.elapsed }, ?_⟩
            simp [step, fetchRunData, cacheLookup_insert]
          · exact ⟨d, by simp [step, fetchRunData, cacheLookup_insert, hid, h]⟩
  | toggle runId => exact ⟨d, by simp_all [step]⟩
  | toggleShowAll => exact ⟨d, by simp_all [step]⟩
  | refreshTick => exact ⟨d, by simp_all [step]⟩

/-- When an identifier already has a cache entry, no step issues an
on-demand cache fetch for it: the cache-population rule is guarded by the
entry's absence, and no other code path issues on-demand fetches. -/
theorem step_no_refetch (s : AppState) (e : Event) (r : String)
    (d : SeriesData) (h : cacheLookup s.runDataCache r = some d) :
    Action.fetchOnDemand r ∉ (step s e).2 := by
  cases e with
  | liveResults resp => cases resp <;> simp [step, fetchLiveResults]
  | runsResp resp =>
      cases resp with
      | error msg => simp [step, fetchRuns]
      | ok l =>
          by_cases hlen : l.length = s.runs.length
          · simp [step, fetchRuns, hlen]
          · cases l with
            | nil => simp [step, fetchRuns, hlen, defaultSelection]
            | cons rs rest =>
                simp only [List.length_cons] at hlen
                by_cases hap : s.activePlots.length = 0 <;>
                  simp [step, fetchRuns, hlen, defaultSelection, hap,
                    cachePopulation, h]
  | runData runId resp => cases resp <;> simp [step, fetchRunData]
  | toggle runId => simp [step, cachePopulation, h]
  | toggleShowAll => simp [step]
  | refreshTick => simp [step]

/-- Trace version: once an identifier's cache entry exists, no later event of
the trace ever issues an on-demand cache fetch for it (entries are never
deleted, and the population rule is guarded by their absence). -/
theorem exec_no_refetch (es : List Event) :
    ∀ (s : AppState) (r : String) (d : SeriesData),
      cacheLookup s.runDataCache r = some d →
      Action.fetchOnDemand r ∉ (exec s es).2 := by
  induction es with
  | nil => intro s r d _ hmem; simp [exec] at hmem
  | cons e es ih =>
      intro s r d h hmem
      simp only [exec, List.mem_append] at hmem
      obtain ⟨d2, h2⟩ := step_cache_persist s e r d h
      cases hmem with
      | inl hm => exact step_no_refetch s e r d h hm
      | inr hm => exact ih (step s e).1 r d2 h2 hm

/-- Toggling preserves distinctness of the selection: removal filters, and
insertion appends an identifier that was absent. -/
theorem togglePlot_nodup (prev : List String) (r : String) (h : prev.Nodup) :
    (togglePlot prev r).Nodup := by
  by_cases hm : r ∈ prev
  · have heq : togglePlot prev r = prev.filter (fun id => id != r) := by
      simp [togglePlot, List.contains, List.elem_eq_mem, hm]
    rw [heq]
    exact h.filter _
  · have heq : togglePlot prev r = prev ++ [r] := by
      simp [togglePlot, List.contains, List.elem_eq_mem, hm]
    rw [heq]
    simp [List.nodup_append, h, hm]

/-- Every step preserves distinctness of the selection: the default rule
installs a singleton, a toggle preserves distinctness, and nothing else
touches the selection. -/
theorem step_activePlots_nodup (s : AppState) (e : Event)
    (h : s.activePlots.Nodup) : (step s e).1.activePlots.Nodup := by
  cases e with
  | liveResults resp => cases resp <;> simp_all [step, fetchLiveResults]
  | runsResp resp =>
      cases resp with
      | error msg => simp_all [step, fetchRuns]
      | ok l =>
          by_cases hlen : l.length = s.runs.length
          · simp_all [step, fetchRuns, hlen]
          · cases l with
            | nil => simp_all [step, fetchRuns, hlen, defaultSelection]
            | cons rs rest =>
                simp only [List.length_cons] at hlen
                by_cases hap : s.activePlots.length = 0 <;>
                  simp_all [step, fetchRuns, hlen, defaultSelection, hap]
  | runData runId resp => cases resp <;> simp_all [step, fetchRunData]
  | toggle runId => simpa [step] using togglePlot_nodup s.activePlots runId h
  | toggleShowAll => simp_all [step]
  | refreshTick => simp_all [step]

/-- Counting an on-demand fetch among mapped on-demand fetches counts the
identifier. -/
theorem count_fetchOnDemand_map (l : List String) (r : String) :
    (l.map Action.fetchOnDemand).count (Action.fetchOnDemand r) = l.count r := by
  induction l with
  | nil => simp
  | cons a l ih => simp [List.count_cons, ih]

/-- Any single step issues at most one on-demand fetch per identifier,
provided the selection holds no duplicates. -/
theorem step_fetch_le_one (s : AppState) (e : Event) (r : String)
    (h : s.activePlots.Nodup) :
    ((step s e).2).count (Action.fetchOnDemand r) ≤ 1 := by
  have hcp : ∀ s2 : AppState, s2.activePlots.Nodup →
      (cachePopulation s2).count (Action.fetchOnDemand r) ≤ 1 := by
    intro s2 h2
    rw [cachePopulation, count_fetchOnDemand_map]
    calc (s2.activePlots.filter
            (fun runId => (cacheLookup s2.runDataCache runId).isNone)).count r
        ≤ s2.activePlots.count r := (List.filter_sublist _).count_le _
      _ ≤ 1 := List.nodup_iff_count_le_one.mp h2 r
  cases e with
  | liveResults resp => cases resp <;> simp [step, fetchLiveResults]
  | runsResp resp =>
      cases resp with
      | error msg => simp [step, fetchRuns]
      | ok l =>
          by_cases hlen : l.length = s.runs.length
          · simp [step, fetchRuns, hlen]
          · cases l with
            | nil => simp [step, fetchRuns, hlen, defaultSelection]
            | cons rs rest =>
                simp only [List.length_cons] at hlen
                by_cases hap : s.activePlots.length = 0
                · have h1 := hcp { s with runs := rs :: rest, activePlots := [rs.run] }
                    (by simp)
                  simp [step, fetchRuns, hlen, defaultSelection, hap,
                    List.count_cons]
                  omega
                · simp [step, fetchRuns, hlen, defaultSelection, hap]
  | runData runId resp => cases resp <;> simp [step, fetchRunData]
  | toggle runId =>
      have h1 := hcp { s with activePlots := togglePlot s.activePlots runId }
        (by simpa using togglePlot_nodup s.activePlots runId h)
      simpa [step] using h1
  | toggleShowAll => simp [step]
  | refreshTick =>
      rw [step]
      have : Action.fetchOnDemand r ∉ s.activePlots.map Action.fetchTimer := by
        simp
      simp [List.count_eq_zero.mpr this]

/-- C4 (counterexample): an on-demand cache fetch for one identifier can be
issued TWICE before its cache entry exists.  The runs response auto-selects
"r1" (first on-demand fetch); before the fetch completes the user selects
"r2", the cache-population rule re-runs over the whole selection, and "r1" —
still uncached — is fetched again. -/
theorem c4_counterexample :
    ((exec init [Event.runsResp (Except.ok [r1sum, r2sum]),
        Event.toggle "r2"]).2).count (Action.fetchOnDemand "r1") = 2 ∧
    cacheLookup (exec init [Event.runsResp (Except.ok [r1sum, r2sum]),
        Event.toggle "r2"]).1.runDataCache "r1" = none := by
  decide

/-- C4 (amended): for any run identifier, the cache-population rule issues at
most one on-demand fetch per selection change while the entry is missing (so
possibly several before the entry exists, one per change — see the
counterexample), and zero on-demand fetches ever again once the entry
exists; in particular completion of the fetch populates the cache and never
re-triggers the rule. -/
theorem c4_theorem (s : AppState) (r : String) (d : SeriesData) :
    (cacheLookup s.runDataCache r = some d →
      ∀ es : List Event, Action.fetchOnDemand r ∉ (exec s es).2) ∧
    (s.activePlots.Nodup →
      ∀ e : Event, ((step s e).2).count (Action.fetchOnDemand r) ≤ 1) :=
  ⟨fun h es => exec_no_refetch es s r d h,
   fun h e => step_fetch_le_one s e r h⟩

/-- C4 (witness): with "r1" already cached, toggling "r1" issues no on-demand
fetch for it; and from the duplicate-free initial state a single toggle
issues at most one. -/
theorem c4_witness :
    (Action.fetchOnDemand "r1" ∉
      (exec { init with runDataCache := [("r1", sampleEntry)] }
        [Event.toggle "r1"]).2) ∧
    ((step init (Event.toggle "r1")).2).count (Action.fetchOnDemand "r1") ≤ 1 :=
  ⟨(c4_theorem { init with runDataCache := [("r1", sampleEntry)] } "r1"
      sampleEntry).1 (by decide) [Event.toggle "r1"],
   (c4_theorem init "r1" sampleEntry).2 (by decide) (Event.toggle "r1")⟩

/-- C10: along every event trace from the initial state — runs responses
firing the default-selection rule, user toggles, fetch completions, timer
ticks — the selection list contains no duplicate run identifiers. -/
theorem c10_theorem (es : List Event) : (exec init es).1.activePlots.Nodup := by
  suffices h : ∀ (es : List Event) (s : AppState), s.activePlots.Nodup →
      (exec s es).1.activePlots.Nodup by
    exact h es init (by simp [init])
  intro es
  induction es with
  | nil => intro s hs; simpa [exec] using hs
  | cons e es ih =>
      intro s hs
      simpa [exec] using ih (step s e).1 (step_activePlots_nodup s e hs)

/-- C8: every emitted chart series comes from a position of the selection
whose identifier has a non-empty cached series, and carries x = cached steps,
y = cached returns, label = the run identifier and the palette color of its
selection index; a selected identifier with no cache entry, or an empty
cached steps sequence, yields no series at its position. -/
theorem c8_theorem (ap : List String) (runs : List RunSummary)
    (cache : List (String × SeriesData)) :
    plotData ap runs cache =
      (ap.enum.map (fun p => mkTrace runs cache p.1 p.2)).reduceOption ∧
    (∀ p ∈ plotData ap runs cache, ∃ idx runId runData,
        ap[idx]? = some runId ∧ cacheLookup cache runId = some runData ∧
        runData.steps ≠ [] ∧ p.x = runData.steps ∧ p.y = runData.returns ∧
        p.name = runId ∧ p.color = paletteColor idx) ∧
    (∀ idx runId,
        (cacheLookup cache runId = none ∨
          ∃ runData, cacheLookup cache runId = some runData ∧ runData.steps = []) →
        mkTrace runs cache idx runId = none) := by
  refine ⟨rfl, ?_, ?_⟩
  · intro p hp
    rw [plotData, List.reduceOption_mem_iff] at hp
    obtain ⟨⟨idx, runId⟩, hmem, heq⟩ := List.mem_map.mp hp
    have hget : ap[idx]? = some runId :=
      (List.mk_mem_enum_iff_getElem?).mp hmem
    refine ⟨idx, runId, ?_⟩
    rw [mkTrace] at heq
    cases hfind : runs.find? (fun r => r.run == runId) with
    | none => simp [hfind] at heq
    | some run =>
        cases hlook : cacheLookup cache runId with
        | none => simp [hfind, hlook] at heq
        | some runData =>
            by_cases hlen : runData.steps.length = 0
            · simp [hfind, hlook, hlen] at heq
            · simp only [hfind, hlook] at heq
              rw [if_neg hlen] at heq
              injection heq with h2
              subst h2
              have hrun : run.run = runId := by
                have := List.find?_some hfind
                simpa using this
              exact ⟨runData, hget, rfl, fun hnil => hlen (by simp [hnil]),
                rfl, rfl, hrun, rfl⟩
  · intro idx runId h
    rw [mkTrace]
    cases hfind : runs.find? (fun r => r.run == runId) with
    | none => rfl
    | some run =>
        cases h with
        | inl hnone => simp [hnone]
        | inr hsome =>
            obtain ⟨runData, hlook, hnil⟩ := hsome
            simp [hlook, hnil]

/-- C8 (witness): an identifier with no cache entry yields no series at its
position. -/
theorem c8_witness : mkTrace ([] : List RunSummary) [] 0 "r1" = none :=
  ( c8_theorem ["r1"] [] []).2.2 0 "r1" (Or.inl rfl)

end RLDash
